/-
Verification of the Schedora job-orchestration engine against its
specification.  The definitions below are shallow embeddings of the
Python sources under `src/schedora/`; each theorem settles one claim
about the engine.
-/
import Mathlib

namespace Schedora

/-! ## Core enums (`schedora/core/enums.py`) -/

/-- Job state machine states (`JobStatus` in `core/enums.py`). -/
inductive JobStatus where
  | PENDING
  | SCHEDULED
  | RUNNING
  | SUCCESS
  | FAILED
  | RETRYING
  | DEAD
  | CANCELED
deriving DecidableEq, Fintype

/-- Retry backoff policies (`RetryPolicy` in `core/enums.py`). -/
inductive RetryPolicy where
  | FIXED
  | EXPONENTIAL
  | JITTER
deriving DecidableEq

/-- Workflow execution status (`WorkflowStatus` in `core/enums.py`). -/
inductive WorkflowStatus where
  | PENDING
  | RUNNING
  | COMPLETED
  | FAILED
deriving DecidableEq

/-! ## State machine (`schedora/services/state_machine.py`) -/

namespace JobStateMachine

open JobStatus

/-- The `TRANSITIONS` dict of `JobStateMachine`: the allowed next states
for each current state, exactly as written in the source. -/
def TRANSITIONS : JobStatus → List JobStatus
  | PENDING => [SCHEDULED, CANCELED]
  | SCHEDULED => [RUNNING, CANCELED]
  | RUNNING => [SUCCESS, FAILED, RETRYING, CANCELED]
  | FAILED => [RETRYING, DEAD]
  | RETRYING => [SCHEDULED]
  | SUCCESS => []
  | DEAD => []
  | CANCELED => []

/-- The `TERMINAL_STATES` set of `JobStateMachine`. -/
def TERMINAL_STATES : List JobStatus := [SUCCESS, DEAD, CANCELED]

/-- `JobStateMachine.can_transition`: membership of the target state in
the allowed-successor set of the current state. -/
def can_transition (from_state to_state : JobStatus) : Bool :=
  decide (to_state ∈ TRANSITIONS from_state)

/-- Error kinds raised by the services modelled here
(`core/exceptions.py`). -/
inductive ServiceError where
  | InvalidStateTransition
  | JobNotFound
  | DuplicateIdempotencyKey
deriving DecidableEq

/-- `JobStateMachine.validate_transition`: raises
`InvalidStateTransitionError` exactly when `can_transition` is false. -/
def validate_transition (from_state to_state : JobStatus) :
    Except ServiceError Unit :=
  if can_transition from_state to_state then Except.ok ()
  else Except.error ServiceError.InvalidStateTransition

/-- `JobStateMachine.is_terminal`. -/
def is_terminal (state : JobStatus) : Bool :=
  decide (state ∈ TERMINAL_STATES)

/-- The transition table as written in §4.1 of the specification
(which, unlike the source's `TRANSITIONS`, lists RUNNING among the
successors of PENDING). -/
def specTable : JobStatus → List JobStatus
  | PENDING => [SCHEDULED, RUNNING, CANCELED]
  | SCHEDULED => [RUNNING, CANCELED]
  | RUNNING => [SUCCESS, FAILED, RETRYING, CANCELED]
  | FAILED => [RETRYING, DEAD]
  | RETRYING => [SCHEDULED]
  | SUCCESS => []
  | DEAD => []
  | CANCELED => []

/-- Edge test against the specification's §4.1 table. -/
def specCanTransition (from_state to_state : JobStatus) : Bool :=
  decide (to_state ∈ specTable from_state)

end JobStateMachine

/-! ## Retry policy (`schedora/services/retry_service.py`) -/

namespace RetryService

/-- `RetryService.calculate_next_retry`.  Time instants and delays are
rationals (seconds); `jitter` is the oracle standing for the sample
drawn by `random.uniform(0, exponential_delay * 0.5)` in the JITTER
branch, the code's only source of nondeterminism.  The `max_retries`
argument is accepted and, as in the source, not used in the
computation. -/
def calculate_next_retry (now : ℚ) (retry_count max_retries : Nat)
    (retry_policy : RetryPolicy) (base_delay max_delay : ℚ)
    (jitter : ℚ) : ℚ :=
  match retry_policy with
  | RetryPolicy.FIXED => now + base_delay
  | RetryPolicy.EXPONENTIAL =>
      now + min (base_delay * 2 ^ retry_count) max_delay
  | RetryPolicy.JITTER =>
      let exponential_delay := min (base_delay * 2 ^ retry_count) max_delay
      now + (exponential_delay + jitter)

/-- `RetryService.should_retry`. -/
def should_retry (retry_count max_retries : Nat) : Bool :=
  decide (retry_count < max_retries)

end RetryService

/-! ## Workflow aggregation (`schedora/services/workflow_service.py`) -/

namespace WorkflowService

/-- The job-count and overall-status summary returned by
`WorkflowService.get_workflow_status` (identity fields omitted). -/
structure WorkflowStatusSummary where
  total_jobs : Nat
  completed_jobs : Nat
  failed_jobs : Nat
  running_jobs : Nat
  status : WorkflowStatus
deriving DecidableEq

/-- `WorkflowService.get_workflow_status`, as a function of the member
jobs' statuses.  The counts mirror the source's
`sum(1 for job in jobs if ...)` comprehensions and the overall status
mirrors its if/elif chain. -/
def get_workflow_status (jobs : List JobStatus) : WorkflowStatusSummary :=
  let total_jobs := jobs.length
  let completed_jobs :=
    (jobs.map (fun s => if s = JobStatus.SUCCESS then 1 else 0)).sum
  let failed_jobs :=
    (jobs.map (fun s =>
      if s ∈ [JobStatus.FAILED, JobStatus.DEAD, JobStatus.CANCELED] then 1 else 0)).sum
  let running_jobs :=
    (jobs.map (fun s =>
      if s ∈ [JobStatus.RUNNING, JobStatus.SCHEDULED] then 1 else 0)).sum
  let overall :=
    if failed_jobs > 0 then WorkflowStatus.FAILED
    else if completed_jobs = total_jobs ∧ total_jobs > 0 then WorkflowStatus.COMPLETED
    else if running_jobs > 0 then WorkflowStatus.RUNNING
    else WorkflowStatus.PENDING
  ⟨total_jobs, completed_jobs, failed_jobs, running_jobs, overall⟩

end WorkflowService

/-! ## Priority queue (`schedora/services/redis_queue.py`)

The queue is a Redis sorted set holding job-id strings scored by
priority.  We model the set as its list of (member, score) pairs;
Redis keeps members distinct and enumerates them by ascending score,
with score ties ordered by member string.  `ZPOPMAX` takes the entry
at the maximal end of that order; `ZRANGE 0 0` with descending
enumeration reads the first entry of the reversed order. -/

namespace RedisQueue

/-- A sorted-set entry: (member string, score). -/
abbrev Entry := String × Int

/-- Redis's internal sorted-set order: ascending score, ties broken by
the member string, ascending lexicographically (members compared as
their character sequences). -/
def zle (a b : Entry) : Prop := a.2 < b.2 ∨ (a.2 = b.2 ∧ a.1.data ≤ b.1.data)

instance : DecidableRel zle := fun a b =>
  inferInstanceAs (Decidable (a.2 < b.2 ∨ (a.2 = b.2 ∧ a.1.data ≤ b.1.data)))

instance : IsTotal Entry zle where
  total a b := by
    rcases lt_trichotomy a.2 b.2 with h | h | h
    · exact Or.inl (Or.inl h)
    · rcases le_total a.1.data b.1.data with h' | h'
      · exact Or.inl (Or.inr ⟨h, h'⟩)
      · exact Or.inr (Or.inr ⟨h.symm, h'⟩)
    · exact Or.inr (Or.inl h)

instance : IsTrans Entry zle where
  trans a b c hab hbc := by
    rcases hab with h | ⟨h, h'⟩ <;> rcases hbc with g | ⟨g, g'⟩
    · exact Or.inl (h.trans g)
    · exact Or.inl (g ▸ h)
    · exact Or.inl (h ▸ g)
    · exact Or.inr ⟨h.trans g, h'.trans g'⟩

/-- The entries of the sorted set in Redis's ascending enumeration
order. -/
def zsorted (q : List Entry) : List Entry := q.insertionSort zle

/-- `ZPOPMAX key 1`: the entry at the maximal end of the order. -/
def zpopmax (q : List Entry) : Option Entry := (zsorted q).getLast?

/-- `ZRANGE key 0 0` enumerated descending (`desc=True`), first
element: what `RedisQueue.peek` reads. -/
def zrange_desc_head (q : List Entry) : Option Entry :=
  (zsorted q).reverse.head?

/-- `RedisQueue.dequeue`: `ZPOPMAX` the single maximal entry, returning
its member and the remaining set. -/
def dequeue (q : List Entry) : Option String × List Entry :=
  match zpopmax q with
  | none => (none, q)
  | some e => (some e.1, q.erase e)

/-- `RedisQueue.peek`: non-destructive read of the same entry. -/
def peek (q : List Entry) : Option String :=
  (zrange_desc_head q).map (fun e => e.1)

end RedisQueue

/-! ## Durable store (`models/job.py`, `repositories/job_repository.py`)

Jobs are rows of the `jobs` table; `deps` is the job's side of the
`job_dependencies` edge table.  Time instants are rationals.  An ORM
row fetched by primary key is the first row with that id; stores drawn
from the database have pairwise distinct primary keys, which theorems
assume as a `Nodup` hypothesis where it matters. -/

/-- Worker lifecycle states (`WorkerStatus` in `core/enums.py`). -/
inductive WorkerStatus where
  | STARTING
  | ACTIVE
  | STALE
  | STOPPING
  | STOPPED
deriving DecidableEq

/-- The persisted fields of a `Job` row that the core operations read
or write. -/
structure Job where
  job_id : Nat
  idempotency_key : String
  priority : Int
  scheduled_at : ℚ
  status : JobStatus
  worker_id : Option String
  deps : List Nat
deriving DecidableEq

/-- The `jobs` table. -/
abbrev Store := List Job

/-- The persisted fields of a `Worker` row that the heartbeat service
reads or writes (`models/worker.py`). -/
structure Worker where
  worker_id : String
  status : WorkerStatus
  last_heartbeat_at : Option ℚ
  stopped_at : Option ℚ
  cpu_percent : Option ℚ
  memory_percent : Option ℚ
deriving DecidableEq

/-- Update the first element satisfying `p` (the row an ORM
`query(...).first()` fetch would return), leaving the rest unchanged. -/
def updateFirstBy {α : Type} (p : α → Bool) (f : α → α) : List α → List α
  | [] => []
  | a :: rest => if p a then f a :: rest else a :: updateFirstBy p f rest

/-- Redis string-keyed side store: insert-or-overwrite a binding
(`SETEX` / `SET`). -/
def setAssoc {α : Type} (k : String) (v : α) :
    List (String × α) → List (String × α)
  | [] => [(k, v)]
  | (k', v') :: rest =>
      if k' = k then (k, v) :: rest else (k', v') :: setAssoc k v rest

/-- Redis `DEL key`. -/
def delAssoc {α : Type} (k : String) (l : List (String × α)) :
    List (String × α) :=
  l.filter (fun p => !decide (p.1 = k))

/-- Redis read of a key's value. -/
def getAssoc {α : Type} (k : String) (l : List (String × α)) : Option α :=
  (l.find? (fun p => decide (p.1 = k))).map (fun p => p.2)

/-- The engine state the heartbeat service manipulates: the durable
`jobs` and `workers` tables and the Redis side store.  Heartbeat
markers map the key `worker:{id}:heartbeat` to (timestamp, TTL);
assignment sets map `worker:{id}:jobs` to the member job ids. -/
structure SysState where
  jobs : Store
  workers : List Worker
  heartbeat_keys : List (String × (ℚ × ℚ))
  job_assignments : List (String × List Nat)
deriving DecidableEq

/-! ## Job service (`schedora/services/job_service.py`) -/

namespace JobService

open JobStateMachine

/-- The submission fields of `JobCreate` that reach the persisted row;
`job_id` stands for the fresh `uuid4` primary key minted at insert. -/
structure JobCreate where
  job_id : Nat
  idempotency_key : String
  priority : Int
  scheduled_at : ℚ
  deps : List Nat
deriving DecidableEq

/-- `JobService.create_job` composed with `JobRepository.create`:
reject a duplicate `idempotency_key` leaving the store untouched,
otherwise persist and return the new row — with status PENDING, or
SCHEDULED when `scheduled_at` lies in the future (the repository's
extra rule).  The `IntegrityError` re-raise covers the same duplicate
condition under a concurrent insert and needs no separate branch in
this sequential model. -/
def create_job (now : ℚ) (data : JobCreate) (store : Store) :
    Except ServiceError Job × Store :=
  if store.any (fun j => decide (j.idempotency_key = data.idempotency_key)) then
    (Except.error ServiceError.DuplicateIdempotencyKey, store)
  else
    let st := if now < data.scheduled_at then JobStatus.SCHEDULED
              else JobStatus.PENDING
    let job : Job := ⟨data.job_id, data.idempotency_key, data.priority,
      data.scheduled_at, st, none, data.deps⟩
    (Except.ok job, store ++ [job])

/-- `JobRepository.get_by_id`: the first row with the given primary
key. -/
def get_by_id (store : Store) (job_id : Nat) : Option Job :=
  store.find? (fun j => decide (j.job_id = job_id))

/-- `JobService.cancel_job`: fetch the job, validate the transition to
CANCELED through the state machine, then persist the new status. -/
def cancel_job (store : Store) (job_id : Nat) :
    Except ServiceError Job × Store :=
  match get_by_id store job_id with
  | none => (Except.error ServiceError.JobNotFound, store)
  | some j =>
      match validate_transition j.status JobStatus.CANCELED with
      | Except.error e => (Except.error e, store)
      | Except.ok _ =>
          (Except.ok { j with status := JobStatus.CANCELED },
           updateFirstBy (fun k => decide (k.job_id = job_id))
             (fun k => { k with status := JobStatus.CANCELED }) store)

/-- `JobService.transition_status`: fetch, validate against the state
machine, persist. -/
def transition_status (store : Store) (job_id : Nat)
    (new_status : JobStatus) : Except ServiceError Job × Store :=
  match get_by_id store job_id with
  | none => (Except.error ServiceError.JobNotFound, store)
  | some j =>
      match validate_transition j.status new_status with
      | Except.error e => (Except.error e, store)
      | Except.ok _ =>
          (Except.ok { j with status := new_status },
           updateFirstBy (fun k => decide (k.job_id = job_id))
             (fun k => { k with status := new_status }) store)

end JobService

/-! ## Scheduler (`schedora/services/scheduler.py`) -/

namespace Scheduler

/-- The `unmet_deps_subquery` of `Scheduler.claim_job`: the job has an
edge to a row whose status is not SUCCESS. -/
def has_unmet_dep (store : Store) (j : Job) : Bool :=
  j.deps.any (fun d =>
    store.any (fun k => decide (k.job_id = d) && decide (k.status ≠ JobStatus.SUCCESS)))

/-- The claim filter of `Scheduler.claim_job`: status PENDING,
`scheduled_at ≤ now`, no unmet dependency. -/
def ready (now : ℚ) (store : Store) (j : Job) : Bool :=
  decide (j.status = JobStatus.PENDING) && decide (j.scheduled_at ≤ now)
    && !has_unmet_dep store j

/-- `Scheduler.claim_job`: take the first row matching the claim
filter, set `status=SCHEDULED` and `worker_id` to the caller, commit.
Returns the claimed row, or none when no row qualifies. -/
def claim_job (now : ℚ) (worker_id : String) (store : Store) :
    Option Job × Store :=
  match store.find? (ready now store) with
  | none => (none, store)
  | some j =>
      (some { j with status := JobStatus.SCHEDULED, worker_id := some worker_id },
       updateFirstBy (fun k => decide (k.job_id = j.job_id))
         (fun k => { k with status := JobStatus.SCHEDULED,
                            worker_id := some worker_id }) store)

end Scheduler

/-! ## Heartbeat service (`schedora/services/heartbeat_service.py`) -/

namespace HeartbeatService

/-- The Redis key `worker:{id}:heartbeat`. -/
def heartbeat_key (worker_id : String) : String :=
  "worker:" ++ worker_id ++ ":heartbeat"

/-- The Redis key `worker:{id}:jobs`. -/
def jobs_key (worker_id : String) : String :=
  "worker:" ++ worker_id ++ ":jobs"

/-- `HeartbeatService.send_heartbeat`: refresh the fast-expiry marker
unconditionally, then update the durable row's timestamp and samples
only when the worker row exists (`if worker:` in the source). -/
def send_heartbeat (heartbeat_timeout : ℚ) (worker_id : String) (now : ℚ)
    (cpu_percent memory_percent : Option ℚ) (st : SysState) : SysState :=
  { st with
    heartbeat_keys :=
      setAssoc (heartbeat_key worker_id) (now, heartbeat_timeout) st.heartbeat_keys,
    workers :=
      updateFirstBy (fun w => decide (w.worker_id = worker_id))
        (fun w =>
          { w with last_heartbeat_at := some now,
                   cpu_percent := cpu_percent.or w.cpu_percent,
                   memory_percent := memory_percent.or w.memory_percent })
        st.workers }

/-- `HeartbeatService.get_worker_jobs`: `SMEMBERS` of the assignment
set; a missing key reads as the empty set. -/
def get_worker_jobs (worker_id : String) (st : SysState) : List Nat :=
  (getAssoc (jobs_key worker_id) st.job_assignments).getD []

/-- `HeartbeatService.handle_stale_worker`: for each job id in the
worker's assignment set, fetch the row and move it to PENDING only when
its current status is RUNNING; finally delete the assignment-set
key. -/
def handle_stale_worker (worker_id : String) (st : SysState) : SysState :=
  let job_ids := get_worker_jobs worker_id st
  { st with
    jobs := job_ids.foldl (fun s i =>
      updateFirstBy (fun j => decide (j.job_id = i))
        (fun j => if j.status = JobStatus.RUNNING
                  then { j with status := JobStatus.PENDING } else j) s) st.jobs,
    job_assignments := delAssoc (jobs_key worker_id) st.job_assignments }

/-- `HeartbeatService.deregister_worker`: delete the marker and
assignment-set keys, then set the durable row to STOPPED only when it
exists (`if worker:` in the source). -/
def deregister_worker (worker_id : String) (now : ℚ) (st : SysState) :
    SysState :=
  { st with
    heartbeat_keys := delAssoc (heartbeat_key worker_id) st.heartbeat_keys,
    job_assignments := delAssoc (jobs_key worker_id) st.job_assignments,
    workers :=
      updateFirstBy (fun w => decide (w.worker_id = worker_id))
        (fun w => { w with status := WorkerStatus.STOPPED,
                           stopped_at := some now })
        st.workers }

end HeartbeatService

end Schedora

namespace Schedora

/-! ## Helper lemmas -/

/-- The sorted-set order is reflexive. -/
theorem zle_refl (a : RedisQueue.Entry) : RedisQueue.zle a a :=
  Or.inr ⟨rfl, le_refl _⟩

/-- In a list sorted by `zle`, the last element is a `zle`-upper bound. -/
theorem sorted_zle_getLast {l : List RedisQueue.Entry}
    (hs : l.Sorted RedisQueue.zle) {e : RedisQueue.Entry}
    (he : l.getLast? = some e) : ∀ x ∈ l, RedisQueue.zle x e := by
  induction l with
  | nil => simp at he
  | cons a l ih =>
      intro x hx
      cases l with
      | nil =>
          simp only [List.getLast?_singleton, Option.some.injEq] at he
          simp only [List.mem_singleton] at hx
          subst he; subst hx
          exact zle_refl x
      | cons b l' =>
          rw [List.getLast?_cons_cons] at he
          rcases List.mem_cons.mp hx with rfl | hx'
          · have hmem : e ∈ b :: l' :=
              List.mem_of_mem_getLast? (Option.mem_def.mpr he)
            exact (List.sorted_cons.mp hs).1 e hmem
          · exact ih (List.sorted_cons.mp hs).2 he x hx'

/-- A `sum` of 0/1 indicators is a `countP`. -/
theorem sum_indicator_eq_countP (p : JobStatus → Prop) [DecidablePred p]
    (l : List JobStatus) :
    (l.map (fun s => if p s then 1 else 0)).sum
      = l.countP (fun s => decide (p s)) := by
  induction l with
  | nil => simp
  | cons a l ih =>
      by_cases h : p a <;> simp [List.countP_cons, h, ih, Nat.add_comm]

/-- `updateFirstBy` touches nothing when no element matches. -/
theorem updateFirstBy_of_forall_not {α : Type} {p : α → Bool} {l : List α}
    (h : ∀ a ∈ l, ¬p a = true) (f : α → α) : updateFirstBy p f l = l := by
  induction l with
  | nil => rfl
  | cons a rest ih =>
      have ha : ¬p a = true := h a (List.mem_cons_self a rest)
      simp only [updateFirstBy, if_neg ha]
      rw [ih (fun b hb => h b (List.mem_cons_of_mem a hb))]

/-- A map that fixes every element of the list is the identity. -/
theorem map_eq_self_of_forall {α : Type} {g : α → α} {l : List α}
    (h : ∀ a ∈ l, g a = a) : l.map g = l := by
  induction l with
  | nil => rfl
  | cons a rest ih =>
      rw [List.map_cons, h a (List.mem_cons_self a rest),
        ih (fun b hb => h b (List.mem_cons_of_mem a hb))]

/-- When the rows carry pairwise distinct keys, updating the first
key-match is a pointwise map over the whole table. -/
theorem updateFirstBy_eq_map_of_nodup {α β : Type} [DecidableEq β]
    (key : α → β) {l : List α} (h : (l.map key).Nodup) (k : β) (f : α → α) :
    updateFirstBy (fun a => decide (key a = k)) f l
      = l.map (fun a => if key a = k then f a else a) := by
  induction l with
  | nil => rfl
  | cons a rest ih =>
      simp only [List.map_cons, List.nodup_cons] at h
      by_cases hk : key a = k
      · have hrest : rest.map (fun a => if key a = k then f a else a) = rest := by
          apply map_eq_self_of_forall
          intro b hb
          have hb' : key b ≠ k := by
            intro hbk
            exact h.1 (hk ▸ hbk ▸ List.mem_map_of_mem key hb)
          simp [hb']
        simp only [updateFirstBy, decide_eq_true_eq, if_pos hk, List.map_cons, hrest]
      · simp only [updateFirstBy, decide_eq_true_eq, if_neg hk, List.map_cons,
          ih h.2]

/-- Zipping a list with itself pairs each element with itself. -/
theorem zip_self_eq {α : Type} (l : List α) : ∀ q ∈ l.zip l, q.2 = q.1 := by
  induction l with
  | nil => intro q hq; simp at hq
  | cons a rest ih =>
      intro q hq
      rw [List.zip_cons_cons] at hq
      rcases List.mem_cons.mp hq with rfl | hq'
      · rfl
      · exact ih q hq'

/-- Zipping a list with its map pairs each element with its image. -/
theorem zip_map_eq {α : Type} (g : α → α) (l : List α) :
    ∀ q ∈ l.zip (l.map g), q.2 = g q.1 := by
  induction l with
  | nil => intro q hq; simp at hq
  | cons a rest ih =>
      intro q hq
      rw [List.map_cons, List.zip_cons_cons] at hq
      rcases List.mem_cons.mp hq with rfl | hq'
      · rfl
      · exact ih q hq'

/-- Each position of `updateFirstBy p f l` holds either the original
element or, at the unique updated position, the image under `f` of the
first `p`-match. -/
theorem zip_updateFirstBy {α : Type} (p : α → Bool) (f : α → α) (l : List α) :
    ∀ q ∈ l.zip (updateFirstBy p f l),
      q.2 = q.1 ∨ (l.find? p = some q.1 ∧ q.2 = f q.1) := by
  induction l with
  | nil => intro q hq; simp at hq
  | cons a rest ih =>
      intro q hq
      by_cases h : p a
      · simp only [updateFirstBy, if_pos h, List.zip_cons_cons] at hq
        rcases List.mem_cons.mp hq with rfl | hq'
        · exact Or.inr ⟨List.find?_cons_of_pos rest h, rfl⟩
        · exact Or.inl (zip_self_eq rest q hq')
      · simp only [updateFirstBy, if_neg h, List.zip_cons_cons] at hq
        rcases List.mem_cons.mp hq with rfl | hq'
        · exact Or.inl rfl
        · rcases ih q hq' with h1 | ⟨h2, h3⟩
          · exact Or.inl h1
          · exact Or.inr ⟨by rw [List.find?_cons_of_neg rest h, h2], h3⟩

/-- Reading back the key just written into the side store. -/
theorem getAssoc_setAssoc_self {α : Type} (k : String) (v : α)
    (l : List (String × α)) : getAssoc k (setAssoc k v l) = some v := by
  induction l with
  | nil =>
      unfold setAssoc getAssoc
      rw [List.find?_cons_of_pos _ (by simp)]
      rfl
  | cons p rest ih =>
      obtain ⟨k', v'⟩ := p
      by_cases h : k' = k
      · unfold setAssoc getAssoc
        rw [if_pos h, List.find?_cons_of_pos _ (by simp)]
        rfl
      · unfold setAssoc getAssoc
        rw [if_neg h, List.find?_cons_of_neg _ (by simpa using h)]
        exact ih

/-- Reading a key just deleted from the side store. -/
theorem getAssoc_delAssoc_self {α : Type} (k : String)
    (l : List (String × α)) : getAssoc k (delAssoc k l) = none := by
  induction l with
  | nil => rfl
  | cons p rest ih =>
      obtain ⟨k', v'⟩ := p
      by_cases h : k' = k
      · unfold delAssoc
        rw [List.filter_cons_of_neg (by simp [h])]
        exact ih
      · unfold delAssoc getAssoc
        rw [List.filter_cons_of_pos (by simp [h]),
          List.find?_cons_of_neg _ (by simpa using h)]
        exact ih

/-- Deleting one key leaves every other key's binding unchanged. -/
theorem getAssoc_delAssoc_other {α : Type} {k k' : String} (h : k' ≠ k)
    (l : List (String × α)) : getAssoc k' (delAssoc k l) = getAssoc k' l := by
  induction l with
  | nil => rfl
  | cons p rest ih =>
      obtain ⟨k₀, v₀⟩ := p
      by_cases h0 : k₀ = k
      · have h1 : ¬k₀ = k' := by rintro rfl; exact h h0
        unfold delAssoc getAssoc
        rw [List.filter_cons_of_neg (by simp [h0]),
          List.find?_cons_of_neg _ (by simpa using h1)]
        exact ih
      · by_cases h1 : k₀ = k'
        · unfold delAssoc getAssoc
          rw [List.filter_cons_of_pos (by simp [h0]),
            List.find?_cons_of_pos _ (by simpa using h1),
            List.find?_cons_of_pos _ (by simpa using h1)]
        · unfold delAssoc getAssoc
          rw [List.filter_cons_of_pos (by simp [h0]),
            List.find?_cons_of_neg _ (by simpa using h1),
            List.find?_cons_of_neg _ (by simpa using h1)]
          exact ih

/-- Replaying the assignment-set reclaim loop of `handle_stale_worker`
over a primary-key-distinct store: each RUNNING row whose id belongs to
the set moves to PENDING and everything else stays. -/
theorem foldl_reclaim_eq_map (ids : List Nat) (s : Store)
    (h : (s.map Job.job_id).Nodup) :
    ids.foldl (fun s i =>
        updateFirstBy (fun j => decide (j.job_id = i))
          (fun j => if j.status = JobStatus.RUNNING
                    then { j with status := JobStatus.PENDING } else j) s) s
      = s.map (fun j =>
          if j.job_id ∈ ids ∧ j.status = JobStatus.RUNNING
          then { j with status := JobStatus.PENDING } else j) := by
  induction ids generalizing s with
  | nil =>
      simp only [List.foldl_nil]
      exact (map_eq_self_of_forall (fun a _ => by simp)).symm
  | cons i ids ih =>
      simp only [List.foldl_cons]
      rw [updateFirstBy_eq_map_of_nodup Job.job_id h i _]
      have hkey : ((s.map (fun a => if a.job_id = i
          then (if a.status = JobStatus.RUNNING
                then { a with status := JobStatus.PENDING } else a)
          else a)).map Job.job_id).Nodup := by
        rw [List.map_map]
        have : (Job.job_id ∘ fun a => if a.job_id = i
            then (if a.status = JobStatus.RUNNING
                  then { a with status := JobStatus.PENDING } else a)
            else a) = Job.job_id := by
          funext a
          by_cases h1 : a.job_id = i <;> by_cases h2 : a.status = JobStatus.RUNNING
            <;> simp [h1, h2, Function.comp]
        rw [this]; exact h
      rw [ih _ hkey, List.map_map]
      apply List.map_congr_left
      intro j hj
      by_cases h1 : j.job_id = i <;> by_cases h2 : j.status = JobStatus.RUNNING
        <;> simp [h1, h2, Function.comp, List.mem_cons]

/-- `claim_job` on a store with no row matching the claim filter. -/
theorem claim_job_none {now : ℚ} {wid : String} {store : Store}
    (hf : store.find? (Scheduler.ready now store) = none) :
    Scheduler.claim_job now wid store = (none, store) := by
  unfold Scheduler.claim_job
  rw [hf]

/-- `claim_job` when the locked scan returns a first matching row. -/
theorem claim_job_some {now : ℚ} {wid : String} {store : Store} {j₀ : Job}
    (hf : store.find? (Scheduler.ready now store) = some j₀) :
    Scheduler.claim_job now wid store
      = (some { j₀ with status := JobStatus.SCHEDULED,
                        worker_id := some wid },
         updateFirstBy (fun k => decide (k.job_id = j₀.job_id))
           (fun k => { k with status := JobStatus.SCHEDULED,
                              worker_id := some wid }) store) := by
  unfold Scheduler.claim_job
  rw [hf]

/-- Unfolding of the claim filter: PENDING, due, and no store row that
is a non-SUCCESS dependency target. -/
theorem ready_iff {now : ℚ} {store : Store} {j : Job} :
    Scheduler.ready now store j = true
      ↔ j.status = JobStatus.PENDING ∧ j.scheduled_at ≤ now
        ∧ ∀ d ∈ j.deps, ∀ k ∈ store, k.job_id = d
            → k.status = JobStatus.SUCCESS := by
  unfold Scheduler.ready Scheduler.has_unmet_dep
  simp only [Bool.and_eq_true, decide_eq_true_eq, Bool.not_eq_true',
    List.any_eq_false, and_assoc]
  constructor
  · rintro ⟨h1, h2, h3⟩
    refine ⟨h1, h2, ?_⟩
    intro d hd k hk hid
    have h4 := h3 d hd
    rw [List.any_eq_true] at h4
    by_contra hne
    exact h4 ⟨k, hk, by simp [hid, hne]⟩
  · rintro ⟨h1, h2, h3⟩
    refine ⟨h1, h2, ?_⟩
    intro d hd
    rw [List.any_eq_true]
    rintro ⟨k, hk, hkp⟩
    simp only [Bool.and_eq_true, decide_eq_true_eq] at hkp
    exact hkp.2 (h3 d hd k hk hkp.1)

/-- `cancel_job` on a missing job id. -/
theorem cancel_job_not_found {store : Store} {job_id : Nat}
    (hj : JobService.get_by_id store job_id = none) :
    JobService.cancel_job store job_id
      = (Except.error JobStateMachine.ServiceError.JobNotFound, store) := by
  unfold JobService.cancel_job
  rw [hj]

/-- `cancel_job` when the fetched job's status does not admit
CANCELED. -/
theorem cancel_job_invalid {store : Store} {job_id : Nat} {j₀ : Job}
    (hj : JobService.get_by_id store job_id = some j₀)
    (hv : JobStateMachine.can_transition j₀.status JobStatus.CANCELED
      = false) :
    JobService.cancel_job store job_id
      = (Except.error JobStateMachine.ServiceError.InvalidStateTransition,
         store) := by
  unfold JobService.cancel_job
  rw [hj]
  dsimp only
  unfold JobStateMachine.validate_transition
  rw [hv]
  rfl

/-- `cancel_job` when the fetched job's status admits CANCELED. -/
theorem cancel_job_ok {store : Store} {job_id : Nat} {j₀ : Job}
    (hj : JobService.get_by_id store job_id = some j₀)
    (hv : JobStateMachine.can_transition j₀.status JobStatus.CANCELED
      = true) :
    JobService.cancel_job store job_id
      = (Except.ok { j₀ with status := JobStatus.CANCELED },
         updateFirstBy (fun k => decide (k.job_id = job_id))
           (fun k => { k with status := JobStatus.CANCELED }) store) := by
  unfold JobService.cancel_job
  rw [hj]
  dsimp only
  unfold JobStateMachine.validate_transition
  rw [hv]
  rfl

/-- `transition_status` on a missing job id. -/
theorem transition_status_not_found {store : Store} {job_id : Nat}
    {ns : JobStatus} (hj : JobService.get_by_id store job_id = none) :
    JobService.transition_status store job_id ns
      = (Except.error JobStateMachine.ServiceError.JobNotFound, store) := by
  unfold JobService.transition_status
  rw [hj]

/-- `transition_status` when the state machine rejects the edge. -/
theorem transition_status_invalid {store : Store} {job_id : Nat}
    {ns : JobStatus} {j₀ : Job}
    (hj : JobService.get_by_id store job_id = some j₀)
    (hv : JobStateMachine.can_transition j₀.status ns = false) :
    JobService.transition_status store job_id ns
      = (Except.error JobStateMachine.ServiceError.InvalidStateTransition,
         store) := by
  unfold JobService.transition_status
  rw [hj]
  dsimp only
  unfold JobStateMachine.validate_transition
  rw [hv]
  rfl

/-- `transition_status` when the state machine admits the edge. -/
theorem transition_status_ok {store : Store} {job_id : Nat}
    {ns : JobStatus} {j₀ : Job}
    (hj : JobService.get_by_id store job_id = some j₀)
    (hv : JobStateMachine.can_transition j₀.status ns = true) :
    JobService.transition_status store job_id ns
      = (Except.ok { j₀ with status := ns },
         updateFirstBy (fun k => decide (k.job_id = job_id))
           (fun k => { k with status := ns }) store) := by
  unfold JobService.transition_status
  rw [hj]
  dsimp only
  unfold JobStateMachine.validate_transition
  rw [hv]
  rfl

/-- `create_job` rejects a submission whenever some persisted row
already carries the submitted idempotency key, leaving the store
unchanged. -/
theorem create_job_of_exists_key (now : ℚ) (data : JobService.JobCreate)
    (store : Store)
    (h : ∃ j ∈ store, j.idempotency_key = data.idempotency_key) :
    JobService.create_job now data store
      = (Except.error JobStateMachine.ServiceError.DuplicateIdempotencyKey,
         store) := by
  obtain ⟨j, hj, hkey⟩ := h
  unfold JobService.create_job
  rw [if_pos]
  exact List.any_eq_true.mpr ⟨j, hj, by simpa using hkey⟩

/-- C1: claimed that `can_transition(PENDING, RUNNING)` returns true and
that `can_transition` agrees with the spec's §4.1 table at every pair.
The source's `TRANSITIONS[PENDING]` is `{SCHEDULED, CANCELED}`, so
`can_transition(PENDING, RUNNING)` evaluates to false, diverging from
the spec table (and from the repository's own unit tests, which assert
it is true); the remaining parts of the claim — `validate_transition`
raises exactly when `can_transition` is false, and `is_terminal` holds
exactly for SUCCESS, DEAD, CANCELED — do hold. -/
theorem c1_can_transition_pending_running_code_bug :
    JobStateMachine.can_transition JobStatus.PENDING JobStatus.RUNNING = false
    ∧ JobStateMachine.specCanTransition JobStatus.PENDING JobStatus.RUNNING = true
    ∧ (∀ f t : JobStatus,
        JobStateMachine.validate_transition f t =
          Except.error JobStateMachine.ServiceError.InvalidStateTransition
        ↔ JobStateMachine.can_transition f t = false)
    ∧ (∀ s : JobStatus,
        JobStateMachine.is_terminal s = true
        ↔ (s = JobStatus.SUCCESS ∨ s = JobStatus.DEAD ∨ s = JobStatus.CANCELED)) := by
  refine ⟨by decide, by decide, ?_, by decide⟩
  intro f t
  unfold JobStateMachine.validate_transition
  rcases h : JobStateMachine.can_transition f t with _ | _ <;> simp [h]

/-- C7: `calculate_next_retry` returns `now + base_delay` under FIXED,
`now + min(base_delay·2^retry_count, max_delay)` under EXPONENTIAL, and
under JITTER `now + e + j` where `e` is the capped exponential delay and
`j` the uniform sample in `[0, 0.5·e)`, with no further cap applied
after the jitter is added. -/
theorem c7_calculate_next_retry_spec
    (now base_delay max_delay jitter : ℚ) (retry_count max_retries : Nat)
    (hj0 : 0 ≤ jitter)
    (hj1 : jitter < min (base_delay * 2 ^ retry_count) max_delay / 2) :
    RetryService.calculate_next_retry now retry_count max_retries
        RetryPolicy.FIXED base_delay max_delay jitter = now + base_delay
    ∧ RetryService.calculate_next_retry now retry_count max_retries
        RetryPolicy.EXPONENTIAL base_delay max_delay jitter
        = now + min (base_delay * 2 ^ retry_count) max_delay
    ∧ RetryService.calculate_next_retry now retry_count max_retries
        RetryPolicy.JITTER base_delay max_delay jitter
        = now + (min (base_delay * 2 ^ retry_count) max_delay + jitter) :=
  ⟨rfl, rfl, rfl⟩

/-- Witness for C7 at a concrete input where the jittered result
`3600 + 1000` exceeds `max_delay = 3600`, exhibiting the absence of a
second cap. -/
theorem c7_calculate_next_retry_spec_witness :
    (0 : ℚ) ≤ 1000
    ∧ (1000 : ℚ) < min (3600 * 2 ^ 0) 3600 / 2
    ∧ RetryService.calculate_next_retry 0 0 3 RetryPolicy.JITTER 3600 3600 1000
        = 0 + (min ((3600 : ℚ) * 2 ^ 0) 3600 + 1000) :=
  ⟨by norm_num, by norm_num,
    (c7_calculate_next_retry_spec 0 3600 3600 1000 0 3 (by norm_num)
      (by norm_num)).2.2⟩

/-- C9: `get_workflow_status` reports `completed` = number of SUCCESS
jobs, `failed` = number of FAILED/DEAD/CANCELED jobs, `running` = number
of RUNNING/SCHEDULED jobs, and the overall status is FAILED when
`failed > 0`, else COMPLETED when the workflow is nonempty and all jobs
succeeded, else RUNNING when `running > 0`, else PENDING (so the empty
workflow reports PENDING). -/
theorem c9_get_workflow_status_spec (jobs : List JobStatus) :
    (WorkflowService.get_workflow_status jobs).total_jobs = jobs.length
    ∧ (WorkflowService.get_workflow_status jobs).completed_jobs
        = jobs.countP (fun s => decide (s = JobStatus.SUCCESS))
    ∧ (WorkflowService.get_workflow_status jobs).failed_jobs
        = jobs.countP (fun s => decide (s = JobStatus.FAILED ∨ s = JobStatus.DEAD
            ∨ s = JobStatus.CANCELED))
    ∧ (WorkflowService.get_workflow_status jobs).running_jobs
        = jobs.countP (fun s => decide (s = JobStatus.RUNNING ∨ s = JobStatus.SCHEDULED))
    ∧ (WorkflowService.get_workflow_status jobs).status
        = (if 0 < jobs.countP (fun s => decide (s = JobStatus.FAILED ∨ s = JobStatus.DEAD
              ∨ s = JobStatus.CANCELED)) then WorkflowStatus.FAILED
           else if 0 < jobs.length
               ∧ jobs.countP (fun s => decide (s = JobStatus.SUCCESS)) = jobs.length
             then WorkflowStatus.COMPLETED
           else if 0 < jobs.countP (fun s => decide (s = JobStatus.RUNNING
               ∨ s = JobStatus.SCHEDULED)) then WorkflowStatus.RUNNING
           else WorkflowStatus.PENDING)
    ∧ (WorkflowService.get_workflow_status []).status = WorkflowStatus.PENDING := by
  have hc := sum_indicator_eq_countP (fun s => s = JobStatus.SUCCESS) jobs
  have hf := sum_indicator_eq_countP
    (fun s => s = JobStatus.FAILED ∨ s = JobStatus.DEAD ∨ s = JobStatus.CANCELED) jobs
  have hr := sum_indicator_eq_countP
    (fun s => s = JobStatus.RUNNING ∨ s = JobStatus.SCHEDULED) jobs
  refine ⟨rfl, ?_, ?_, ?_, ?_, by decide⟩
  · simpa [WorkflowService.get_workflow_status] using hc
  · simpa [WorkflowService.get_workflow_status, List.mem_cons] using hf
  · simpa [WorkflowService.get_workflow_status, List.mem_cons] using hr
  · simp only [WorkflowService.get_workflow_status, List.mem_cons,
      List.not_mem_nil, or_false, gt_iff_lt]
    rw [hc, hf, hr]
    have hcomm : (jobs.countP (fun s => decide (s = JobStatus.SUCCESS)) = jobs.length
          ∧ 0 < jobs.length)
        ↔ (0 < jobs.length
          ∧ jobs.countP (fun s => decide (s = JobStatus.SUCCESS)) = jobs.length) :=
      and_comm
    simp only [hcomm]

/-- C8: `peek` returns the member of the same entry `dequeue` would pop
(the entry maximal for the score-then-member order, so the selection is
a maximum-score entry with a deterministic tie-break shared by both),
`peek` does not touch the queue, `dequeue` removes exactly the selected
entry and leaves all others, and both return none on the empty queue. -/
theorem c8_peek_dequeue_agree (q : List RedisQueue.Entry) :
    RedisQueue.peek q = (RedisQueue.dequeue q).1
    ∧ (RedisQueue.peek [] = none ∧ RedisQueue.dequeue [] = (none, []))
    ∧ (∀ (m : String) (q' : List RedisQueue.Entry),
        RedisQueue.dequeue q = (some m, q') →
        ∃ s : Int, (m, s) ∈ q ∧ q' = q.erase (m, s)
          ∧ ∀ e ∈ q, RedisQueue.zle e (m, s)) := by
  refine ⟨?_, ⟨rfl, rfl⟩, ?_⟩
  · unfold RedisQueue.peek RedisQueue.dequeue RedisQueue.zrange_desc_head
      RedisQueue.zpopmax
    rw [List.head?_reverse]
    cases h : (RedisQueue.zsorted q).getLast? <;> simp [h]
  · intro m q' hd
    unfold RedisQueue.dequeue RedisQueue.zpopmax at hd
    cases h : (RedisQueue.zsorted q).getLast? with
    | none => rw [h] at hd; simp at hd
    | some e =>
        rw [h] at hd
        simp only [Prod.mk.injEq, Option.some.injEq] at hd
        obtain ⟨hm, hq⟩ := hd
        subst hm; subst hq
        have hmem : e ∈ q :=
          (List.perm_insertionSort RedisQueue.zle q).mem_iff.mp
            (List.mem_of_mem_getLast? (Option.mem_def.mpr h))
        have hmax : ∀ x ∈ q, RedisQueue.zle x e := by
          intro x hx
          exact sorted_zle_getLast
            (List.sorted_insertionSort RedisQueue.zle q) h x
            ((List.perm_insertionSort RedisQueue.zle q).mem_iff.mpr hx)
        exact ⟨e.2, hmem, rfl, hmax⟩

/-- Witness for C8's dequeue characterisation on the queue
`[("a",1), ("b",5), ("c",5)]`: the popped member is "c" (score 5, the
lexicographically larger of the tied members) and the remaining queue is
`[("a",1), ("b",5)]`. -/
theorem c8_peek_dequeue_agree_witness :
    ∃ s : Int,
      (("c" : String), s) ∈ ([("a", 1), ("b", 5), ("c", 5)] : List RedisQueue.Entry)
      ∧ ([("a", 1), ("b", 5)] : List RedisQueue.Entry)
          = ([("a", 1), ("b", 5), ("c", 5)] : List RedisQueue.Entry).erase ("c", s)
      ∧ ∀ e ∈ ([("a", 1), ("b", 5), ("c", 5)] : List RedisQueue.Entry),
          RedisQueue.zle e ("c", s) :=
  (c8_peek_dequeue_agree [("a", 1), ("b", 5), ("c", 5)]).2.2 "c"
    [("a", 1), ("b", 5)] (by decide)

/-- C3 counterexample: the claim says cancellation succeeds from every
non-terminal state, naming FAILED and RETRYING among them; but on a
store holding one FAILED job — a non-terminal status — `cancel_job`
raises `InvalidStateTransitionError` and leaves the store unchanged,
because `TRANSITIONS[FAILED] = {RETRYING, DEAD}` does not admit
CANCELED. -/
theorem c3_cancel_failed_counterexample :
    JobStateMachine.is_terminal JobStatus.FAILED = false
    ∧ JobService.cancel_job [⟨1, "k", 5, 0, JobStatus.FAILED, none, []⟩] 1
        = (Except.error JobStateMachine.ServiceError.InvalidStateTransition,
           [⟨1, "k", 5, 0, JobStatus.FAILED, none, []⟩]) :=
  ⟨rfl, rfl⟩

/-- C3 (amended): for a job present in the store, `cancel_job` succeeds
and sets status CANCELED exactly when the current status is PENDING,
SCHEDULED, or RUNNING, and raises `InvalidStateTransitionError` when
the current status is FAILED or RETRYING (although non-terminal) or
terminal (SUCCESS, DEAD, CANCELED). -/
theorem c3_cancel_job_spec (store : Store) (job_id : Nat) (j₀ : Job)
    (hfind : JobService.get_by_id store job_id = some j₀) :
    ((j₀.status = JobStatus.PENDING ∨ j₀.status = JobStatus.SCHEDULED
        ∨ j₀.status = JobStatus.RUNNING) →
      JobService.cancel_job store job_id
        = (Except.ok { j₀ with status := JobStatus.CANCELED },
           updateFirstBy (fun k => decide (k.job_id = job_id))
             (fun k => { k with status := JobStatus.CANCELED }) store))
    ∧ ((j₀.status = JobStatus.FAILED ∨ j₀.status = JobStatus.RETRYING
        ∨ JobStateMachine.is_terminal j₀.status = true) →
      JobService.cancel_job store job_id
        = (Except.error JobStateMachine.ServiceError.InvalidStateTransition,
           store)) := by
  constructor
  · intro hs
    have hv : JobStateMachine.validate_transition j₀.status JobStatus.CANCELED
        = Except.ok () := by
      rcases hs with h | h | h <;> rw [h] <;> rfl
    unfold JobService.cancel_job
    rw [hfind]
    dsimp only
    rw [hv]
  · intro hs
    have hv : JobStateMachine.validate_transition j₀.status JobStatus.CANCELED
        = Except.error JobStateMachine.ServiceError.InvalidStateTransition := by
      rcases hs with h | h | h
      · rw [h]; rfl
      · rw [h]; rfl
      · cases hstat : j₀.status <;> rw [hstat] at h <;>
          first | exact absurd h (by decide) | rfl
    unfold JobService.cancel_job
    rw [hfind]
    dsimp only
    rw [hv]

/-- Witness for C3 (amended) on a two-row store: the RUNNING job with
id 2 is found and cancelled, yielding a CANCELED row. -/
theorem c3_cancel_job_spec_witness :
    JobService.cancel_job
        [⟨1, "a", 5, 0, JobStatus.SUCCESS, none, []⟩,
         ⟨2, "b", 5, 0, JobStatus.RUNNING, some "w1", []⟩] 2
      = (Except.ok ⟨2, "b", 5, 0, JobStatus.CANCELED, some "w1", []⟩,
         [⟨1, "a", 5, 0, JobStatus.SUCCESS, none, []⟩,
          ⟨2, "b", 5, 0, JobStatus.CANCELED, some "w1", []⟩]) :=
  (c3_cancel_job_spec
      [⟨1, "a", 5, 0, JobStatus.SUCCESS, none, []⟩,
       ⟨2, "b", 5, 0, JobStatus.RUNNING, some "w1", []⟩] 2
      ⟨2, "b", 5, 0, JobStatus.RUNNING, some "w1", []⟩ rfl).1
    (Or.inr (Or.inr rfl))

/-- C4: `create_job` raises `DuplicateIdempotencyKeyError` and leaves
the store unchanged when a job with the submitted idempotency key
already exists; otherwise it appends and returns the new row; and after
a fresh-key submission, a second submission with the same key fails,
leaves the store unchanged, and exactly one persisted row carries the
key. -/
theorem c4_create_job_idempotency_spec (now now' : ℚ)
    (data data' : JobService.JobCreate) (store : Store) :
    ((∃ j ∈ store, j.idempotency_key = data.idempotency_key) →
      JobService.create_job now data store
        = (Except.error JobStateMachine.ServiceError.DuplicateIdempotencyKey,
           store))
    ∧ ((∀ j ∈ store, j.idempotency_key ≠ data.idempotency_key) →
        (JobService.create_job now data store).2
          = store ++ [⟨data.job_id, data.idempotency_key, data.priority,
              data.scheduled_at,
              if now < data.scheduled_at then JobStatus.SCHEDULED
              else JobStatus.PENDING, none, data.deps⟩]
        ∧ (JobService.create_job now data store).1
          = Except.ok ⟨data.job_id, data.idempotency_key, data.priority,
              data.scheduled_at,
              if now < data.scheduled_at then JobStatus.SCHEDULED
              else JobStatus.PENDING, none, data.deps⟩
        ∧ (data'.idempotency_key = data.idempotency_key →
            JobService.create_job now' data'
                (JobService.create_job now data store).2
              = (Except.error
                  JobStateMachine.ServiceError.DuplicateIdempotencyKey,
                 (JobService.create_job now data store).2))
        ∧ (JobService.create_job now data store).2.countP
            (fun j => decide (j.idempotency_key = data.idempotency_key))
          = 1) := by
  constructor
  · exact create_job_of_exists_key now data store
  · intro hfresh
    have hany : store.any
        (fun j => decide (j.idempotency_key = data.idempotency_key)) = false := by
      rw [List.any_eq_false]
      intro j hj
      simpa using hfresh j hj
    have h2 : (JobService.create_job now data store).2
        = store ++ [⟨data.job_id, data.idempotency_key, data.priority,
            data.scheduled_at,
            if now < data.scheduled_at then JobStatus.SCHEDULED
            else JobStatus.PENDING, none, data.deps⟩] := by
      unfold JobService.create_job
      rw [if_neg (by simp [hany])]
    refine ⟨h2, ?_, ?_, ?_⟩
    · unfold JobService.create_job
      rw [if_neg (by simp [hany])]
    · intro hkey'
      apply create_job_of_exists_key
      rw [h2]
      exact ⟨⟨data.job_id, data.idempotency_key, data.priority,
          data.scheduled_at,
          if now < data.scheduled_at then JobStatus.SCHEDULED
          else JobStatus.PENDING, none, data.deps⟩,
        by simp, by simpa using hkey'.symm⟩
    · rw [h2, List.countP_append]
      have hz : store.countP
          (fun j => decide (j.idempotency_key = data.idempotency_key)) = 0 :=
        List.countP_eq_zero.mpr (fun j hj => by simpa using hfresh j hj)
      simp [hz, List.countP_cons]

/-- Witness for C4: submitting key "k2" twice to the empty store — the
first call persists one row, the second fails with the duplicate-key
error and exactly one row with the key remains. -/
theorem c4_create_job_idempotency_spec_witness :
    (JobService.create_job 0 ⟨1, "k2", 5, 0, []⟩ []).2
      = [] ++ [⟨1, "k2", 5, 0,
          if (0 : ℚ) < 0 then JobStatus.SCHEDULED else JobStatus.PENDING,
          none, []⟩]
    ∧ (JobService.create_job 0 ⟨1, "k2", 5, 0, []⟩ []).1
      = Except.ok ⟨1, "k2", 5, 0,
          if (0 : ℚ) < 0 then JobStatus.SCHEDULED else JobStatus.PENDING,
          none, []⟩
    ∧ (((⟨2, "k2", 5, 0, []⟩ : JobService.JobCreate).idempotency_key
          = ("k2" : String) →
        JobService.create_job 1 ⟨2, "k2", 5, 0, []⟩
            (JobService.create_job 0 ⟨1, "k2", 5, 0, []⟩ []).2
          = (Except.error
              JobStateMachine.ServiceError.DuplicateIdempotencyKey,
             (JobService.create_job 0 ⟨1, "k2", 5, 0, []⟩ []).2)))
    ∧ (JobService.create_job 0 ⟨1, "k2", 5, 0, []⟩ []).2.countP
        (fun j => decide (j.idempotency_key = ("k2" : String))) = 1 :=
  (c4_create_job_idempotency_spec 0 1 ⟨1, "k2", 5, 0, []⟩ ⟨2, "k2", 5, 0, []⟩
    []).2 (by simp)

/-- C5: on a primary-key-distinct store, `claim_job` returns either
none with the store untouched, or a job that at claim time was PENDING,
due (`scheduled_at ≤ now`), and whose every dependency row has status
SUCCESS; the returned job carries status SCHEDULED and the caller's
worker id, the store records exactly that change, and no subsequent
`claim_job` call on the resulting store returns the same job. -/
theorem c5_claim_job_spec (now : ℚ) (wid : String) (store : Store)
    (h : (store.map Job.job_id).Nodup) :
    ((Scheduler.claim_job now wid store).1 = none →
      (Scheduler.claim_job now wid store).2 = store)
    ∧ (∀ j, (Scheduler.claim_job now wid store).1 = some j →
        ∃ j₀ ∈ store,
          j₀.status = JobStatus.PENDING
          ∧ j₀.scheduled_at ≤ now
          ∧ (∀ d ∈ j₀.deps, ∀ k ∈ store, k.job_id = d
              → k.status = JobStatus.SUCCESS)
          ∧ j = { j₀ with status := JobStatus.SCHEDULED,
                          worker_id := some wid }
          ∧ j.status = JobStatus.SCHEDULED
          ∧ j.worker_id = some wid
          ∧ (Scheduler.claim_job now wid store).2
              = store.map (fun k => if k.job_id = j₀.job_id
                  then { k with status := JobStatus.SCHEDULED,
                                worker_id := some wid } else k)
          ∧ (∀ (now' : ℚ) (wid' : String) (j' : Job),
              (Scheduler.claim_job now' wid'
                  (Scheduler.claim_job now wid store).2).1 = some j'
              → j'.job_id ≠ j.job_id)) := by
  cases hf : store.find? (Scheduler.ready now store) with
  | none =>
      rw [claim_job_none hf]
      exact ⟨fun _ => rfl, fun j hj => absurd hj (by simp)⟩
  | some j₀ =>
      rw [claim_job_some hf]
      refine ⟨fun hn => absurd hn (by simp), ?_⟩
      intro j hj
      simp only [Option.some.injEq] at hj
      subst hj
      have hmem := List.mem_of_find?_eq_some hf
      obtain ⟨hstat, hsched, hdeps⟩ := ready_iff.mp (List.find?_some hf)
      have hupd : updateFirstBy (fun k => decide (k.job_id = j₀.job_id))
          (fun k => { k with status := JobStatus.SCHEDULED,
                             worker_id := some wid }) store
          = store.map (fun k => if k.job_id = j₀.job_id
              then { k with status := JobStatus.SCHEDULED,
                            worker_id := some wid } else k) :=
        updateFirstBy_eq_map_of_nodup Job.job_id h j₀.job_id _
      refine ⟨j₀, hmem, hstat, hsched, hdeps, rfl, rfl, rfl, hupd, ?_⟩
      intro now' wid' j' hj'
      rw [hupd] at hj'
      cases hf' : (store.map (fun k => if k.job_id = j₀.job_id
          then { k with status := JobStatus.SCHEDULED,
                        worker_id := some wid } else k)).find?
          (Scheduler.ready now' (store.map (fun k => if k.job_id = j₀.job_id
            then { k with status := JobStatus.SCHEDULED,
                          worker_id := some wid } else k))) with
      | none => rw [claim_job_none hf'] at hj'; simp at hj'
      | some j₁ =>
          rw [claim_job_some hf'] at hj'
          simp only [Option.some.injEq] at hj'
          subst hj'
          have hmem' := List.mem_of_find?_eq_some hf'
          have hstat' : j₁.status = JobStatus.PENDING :=
            (ready_iff.mp (List.find?_some hf')).1
          obtain ⟨k, hk, hk2⟩ := List.mem_map.mp hmem'
          by_cases hkid : k.job_id = j₀.job_id
          · rw [if_pos hkid] at hk2
            rw [← hk2] at hstat'
            simp at hstat'
          · rw [if_neg hkid] at hk2
            subst hk2
            intro hh
            exact hkid (by simpa using hh)

/-- Witness for C5 on a two-row store where job 2 is PENDING, due, and
depends on job 1 which has status SUCCESS: `claim_job` at time 0 for
worker "w1" claims job 2. -/
theorem c5_claim_job_spec_witness :
    ∃ j₀ ∈ ([⟨1, "a", 5, 0, JobStatus.SUCCESS, none, []⟩,
             ⟨2, "b", 5, 0, JobStatus.PENDING, none, [1]⟩] : Store),
      j₀.status = JobStatus.PENDING
      ∧ j₀.scheduled_at ≤ 0
      ∧ (∀ d ∈ j₀.deps,
          ∀ k ∈ ([⟨1, "a", 5, 0, JobStatus.SUCCESS, none, []⟩,
                  ⟨2, "b", 5, 0, JobStatus.PENDING, none, [1]⟩] : Store),
            k.job_id = d → k.status = JobStatus.SUCCESS)
      ∧ (⟨2, "b", 5, 0, JobStatus.SCHEDULED, some "w1", [1]⟩ : Job)
          = { j₀ with status := JobStatus.SCHEDULED, worker_id := some "w1" }
      ∧ (⟨2, "b", 5, 0, JobStatus.SCHEDULED, some "w1", [1]⟩ : Job).status
          = JobStatus.SCHEDULED
      ∧ (⟨2, "b", 5, 0, JobStatus.SCHEDULED, some "w1", [1]⟩ : Job).worker_id
          = some "w1"
      ∧ (Scheduler.claim_job 0 "w1"
            [⟨1, "a", 5, 0, JobStatus.SUCCESS, none, []⟩,
             ⟨2, "b", 5, 0, JobStatus.PENDING, none, [1]⟩]).2
          = ([⟨1, "a", 5, 0, JobStatus.SUCCESS, none, []⟩,
              ⟨2, "b", 5, 0, JobStatus.PENDING, none, [1]⟩] : Store).map
              (fun k => if k.job_id = j₀.job_id
                then { k with status := JobStatus.SCHEDULED,
                              worker_id := some "w1" } else k)
      ∧ (∀ (now' : ℚ) (wid' : String) (j' : Job),
          (Scheduler.claim_job now' wid'
              (Scheduler.claim_job 0 "w1"
                [⟨1, "a", 5, 0, JobStatus.SUCCESS, none, []⟩,
                 ⟨2, "b", 5, 0, JobStatus.PENDING, none, [1]⟩]).2).1 = some j'
          → j'.job_id ≠ (⟨2, "b", 5, 0, JobStatus.SCHEDULED, some "w1",
              [1]⟩ : Job).job_id) :=
  (c5_claim_job_spec 0 "w1"
      [⟨1, "a", 5, 0, JobStatus.SUCCESS, none, []⟩,
       ⟨2, "b", 5, 0, JobStatus.PENDING, none, [1]⟩] (by decide)).2
    ⟨2, "b", 5, 0, JobStatus.SCHEDULED, some "w1", [1]⟩ rfl

/-- C6: on a primary-key-distinct store, `handle_stale_worker(W)` moves
to PENDING exactly those jobs in W's assignment set whose current
status is RUNNING, leaves every other job (including SCHEDULED jobs and
jobs in terminal states) unchanged, empties W's assignment set, and
touches neither the worker table, the heartbeat markers, nor any other
worker's assignment set. -/
theorem c6_handle_stale_worker_spec (wid : String) (st : SysState)
    (h : (st.jobs.map Job.job_id).Nodup) :
    (HeartbeatService.handle_stale_worker wid st).jobs
      = st.jobs.map (fun j =>
          if j.job_id ∈ HeartbeatService.get_worker_jobs wid st
              ∧ j.status = JobStatus.RUNNING
          then { j with status := JobStatus.PENDING } else j)
    ∧ HeartbeatService.get_worker_jobs wid
        (HeartbeatService.handle_stale_worker wid st) = []
    ∧ (HeartbeatService.handle_stale_worker wid st).workers = st.workers
    ∧ (HeartbeatService.handle_stale_worker wid st).heartbeat_keys
        = st.heartbeat_keys
    ∧ (∀ k, k ≠ HeartbeatService.jobs_key wid →
        getAssoc k (HeartbeatService.handle_stale_worker wid st).job_assignments
          = getAssoc k st.job_assignments) := by
  refine ⟨?_, ?_, rfl, rfl, ?_⟩
  · exact foldl_reclaim_eq_map (HeartbeatService.get_worker_jobs wid st)
      st.jobs h
  · show (getAssoc (HeartbeatService.jobs_key wid)
      (delAssoc (HeartbeatService.jobs_key wid) st.job_assignments)).getD [] = []
    rw [getAssoc_delAssoc_self]
    rfl
  · intro k hk
    exact getAssoc_delAssoc_other hk st.job_assignments

/-- Witness for C6: worker "w1" holds jobs 1 (RUNNING) and 2
(SCHEDULED); the sweep returns job 1 to PENDING, leaves jobs 2 and 3
alone, and clears the set while leaving "w2" keys readable. -/
theorem c6_handle_stale_worker_spec_witness :
    (HeartbeatService.handle_stale_worker "w1"
        ⟨[⟨1, "a", 5, 0, JobStatus.RUNNING, some "w1", []⟩,
          ⟨2, "b", 5, 0, JobStatus.SCHEDULED, some "w1", []⟩,
          ⟨3, "c", 5, 0, JobStatus.SUCCESS, none, []⟩], [], [],
         [("worker:w1:jobs", [1, 2])]⟩).jobs
      = ([⟨1, "a", 5, 0, JobStatus.RUNNING, some "w1", []⟩,
          ⟨2, "b", 5, 0, JobStatus.SCHEDULED, some "w1", []⟩,
          ⟨3, "c", 5, 0, JobStatus.SUCCESS, none, []⟩] : Store).map
          (fun j =>
            if j.job_id ∈ HeartbeatService.get_worker_jobs "w1"
                ⟨[⟨1, "a", 5, 0, JobStatus.RUNNING, some "w1", []⟩,
                  ⟨2, "b", 5, 0, JobStatus.SCHEDULED, some "w1", []⟩,
                  ⟨3, "c", 5, 0, JobStatus.SUCCESS, none, []⟩], [], [],
                 [("worker:w1:jobs", [1, 2])]⟩
                ∧ j.status = JobStatus.RUNNING
            then { j with status := JobStatus.PENDING } else j)
    ∧ HeartbeatService.get_worker_jobs "w1"
        (HeartbeatService.handle_stale_worker "w1"
          ⟨[⟨1, "a", 5, 0, JobStatus.RUNNING, some "w1", []⟩,
            ⟨2, "b", 5, 0, JobStatus.SCHEDULED, some "w1", []⟩,
            ⟨3, "c", 5, 0, JobStatus.SUCCESS, none, []⟩], [], [],
           [("worker:w1:jobs", [1, 2])]⟩) = []
    ∧ getAssoc "worker:w2:jobs"
        (HeartbeatService.handle_stale_worker "w1"
          ⟨[⟨1, "a", 5, 0, JobStatus.RUNNING, some "w1", []⟩,
            ⟨2, "b", 5, 0, JobStatus.SCHEDULED, some "w1", []⟩,
            ⟨3, "c", 5, 0, JobStatus.SUCCESS, none, []⟩], [], [],
           [("worker:w1:jobs", [1, 2])]⟩).job_assignments
      = getAssoc "worker:w2:jobs" [("worker:w1:jobs", [1, 2])] :=
  ⟨(c6_handle_stale_worker_spec "w1" _ (by decide)).1,
   (c6_handle_stale_worker_spec "w1"
      ⟨[⟨1, "a", 5, 0, JobStatus.RUNNING, some "w1", []⟩,
        ⟨2, "b", 5, 0, JobStatus.SCHEDULED, some "w1", []⟩,
        ⟨3, "c", 5, 0, JobStatus.SUCCESS, none, []⟩], [], [],
       [("worker:w1:jobs", [1, 2])]⟩ (by decide)).2.1,
   (c6_handle_stale_worker_spec "w1"
      ⟨[⟨1, "a", 5, 0, JobStatus.RUNNING, some "w1", []⟩,
        ⟨2, "b", 5, 0, JobStatus.SCHEDULED, some "w1", []⟩,
        ⟨3, "c", 5, 0, JobStatus.SUCCESS, none, []⟩], [], [],
       [("worker:w1:jobs", [1, 2])]⟩ (by decide)).2.2.2.2
     "worker:w2:jobs" (by decide)⟩

/-- C10: for a worker id with no durable row, `send_heartbeat` raises
nothing: it still installs the fast-expiry marker with the configured
TTL and skips the durable update, leaving the worker table, the jobs
table, and the assignment sets untouched; `deregister_worker` likewise
deletes the marker and assignment-set keys and skips the durable
status update. -/
theorem c10_heartbeat_unknown_worker_spec (tmo : ℚ) (wid : String)
    (now : ℚ) (cpu mem : Option ℚ) (st : SysState)
    (habs : ∀ w ∈ st.workers, w.worker_id ≠ wid) :
    (HeartbeatService.send_heartbeat tmo wid now cpu mem st).workers
      = st.workers
    ∧ getAssoc (HeartbeatService.heartbeat_key wid)
        (HeartbeatService.send_heartbeat tmo wid now cpu mem st).heartbeat_keys
      = some (now, tmo)
    ∧ (HeartbeatService.send_heartbeat tmo wid now cpu mem st).jobs = st.jobs
    ∧ (HeartbeatService.send_heartbeat tmo wid now cpu mem st).job_assignments
      = st.job_assignments
    ∧ (HeartbeatService.deregister_worker wid now st).workers = st.workers
    ∧ getAssoc (HeartbeatService.heartbeat_key wid)
        (HeartbeatService.deregister_worker wid now st).heartbeat_keys = none
    ∧ getAssoc (HeartbeatService.jobs_key wid)
        (HeartbeatService.deregister_worker wid now st).job_assignments = none
    ∧ (HeartbeatService.deregister_worker wid now st).jobs = st.jobs := by
  have hnone : ∀ w ∈ st.workers, ¬(decide (w.worker_id = wid)) = true :=
    fun w hw => by simpa using habs w hw
  refine ⟨?_, ?_, rfl, rfl, ?_, ?_, ?_, rfl⟩
  · exact updateFirstBy_of_forall_not hnone _
  · exact getAssoc_setAssoc_self _ _ _
  · exact updateFirstBy_of_forall_not hnone _
  · exact getAssoc_delAssoc_self _ _
  · exact getAssoc_delAssoc_self _ _

/-- Witness for C10: worker "w2" has no row in a table holding only
"w1"; its heartbeat still installs the marker with TTL 90 and its
deregistration deletes both keys, each leaving the worker table as it
was. -/
theorem c10_heartbeat_unknown_worker_spec_witness :
    (HeartbeatService.send_heartbeat 90 "w2" 5 none none
        ⟨[], [⟨"w1", WorkerStatus.ACTIVE, none, none, none, none⟩],
         [], []⟩).workers
      = [⟨"w1", WorkerStatus.ACTIVE, none, none, none, none⟩]
    ∧ getAssoc (HeartbeatService.heartbeat_key "w2")
        (HeartbeatService.send_heartbeat 90 "w2" 5 none none
          ⟨[], [⟨"w1", WorkerStatus.ACTIVE, none, none, none, none⟩],
           [], []⟩).heartbeat_keys
      = some (5, 90)
    ∧ (HeartbeatService.send_heartbeat 90 "w2" 5 none none
        ⟨[], [⟨"w1", WorkerStatus.ACTIVE, none, none, none, none⟩],
         [], []⟩).jobs = []
    ∧ (HeartbeatService.send_heartbeat 90 "w2" 5 none none
        ⟨[], [⟨"w1", WorkerStatus.ACTIVE, none, none, none, none⟩],
         [], []⟩).job_assignments = []
    ∧ (HeartbeatService.deregister_worker "w2" 5
        ⟨[], [⟨"w1", WorkerStatus.ACTIVE, none, none, none, none⟩],
         [], []⟩).workers
      = [⟨"w1", WorkerStatus.ACTIVE, none, none, none, none⟩]
    ∧ getAssoc (HeartbeatService.heartbeat_key "w2")
        (HeartbeatService.deregister_worker "w2" 5
          ⟨[], [⟨"w1", WorkerStatus.ACTIVE, none, none, none, none⟩],
           [], []⟩).heartbeat_keys = none
    ∧ getAssoc (HeartbeatService.jobs_key "w2")
        (HeartbeatService.deregister_worker "w2" 5
          ⟨[], [⟨"w1", WorkerStatus.ACTIVE, none, none, none, none⟩],
           [], []⟩).job_assignments = none
    ∧ (HeartbeatService.deregister_worker "w2" 5
        ⟨[], [⟨"w1", WorkerStatus.ACTIVE, none, none, none, none⟩],
         [], []⟩).jobs = [] :=
  c10_heartbeat_unknown_worker_spec 90 "w2" 5 none none
    ⟨[], [⟨"w1", WorkerStatus.ACTIVE, none, none, none, none⟩], [], []⟩
    (by decide)

/-- C2 counterexample: the claim asserts that the stale-reclaim step
preserves the §4.1-edge invariant, but on a store whose single job is
RUNNING and assigned to the dead worker "w1", `handle_stale_worker`
changes that job's status from RUNNING to PENDING — and
RUNNING→PENDING is an edge of neither the spec's §4.1 table nor the
code's `TRANSITIONS`. -/
theorem c2_stale_reclaim_counterexample :
    (HeartbeatService.handle_stale_worker "w1"
        ⟨[⟨1, "k", 5, 0, JobStatus.RUNNING, some "w1", []⟩], [], [],
         [("worker:w1:jobs", [1])]⟩).jobs
      = [⟨1, "k", 5, 0, JobStatus.PENDING, some "w1", []⟩]
    ∧ JobStateMachine.specCanTransition JobStatus.RUNNING JobStatus.PENDING
        = false
    ∧ JobStateMachine.can_transition JobStatus.RUNNING JobStatus.PENDING
        = false :=
  ⟨rfl, by decide, by decide⟩

/-- C2 (amended): every status change performed by the scheduler's
claim, by cancel, and by the executor's validated `transition_status`
is an edge of the spec's §4.1 table (every edge the code's state
machine admits is a spec edge); the stale-worker reclaim, however,
only ever changes a status from RUNNING to PENDING, which is not an
edge of that table. -/
theorem c2_core_transition_edges :
    (∀ f t, JobStateMachine.can_transition f t = true →
      JobStateMachine.specCanTransition f t = true)
    ∧ (∀ (now : ℚ) (wid : String) (store : Store),
        (store.map Job.job_id).Nodup →
        ∀ q ∈ store.zip (Scheduler.claim_job now wid store).2,
          q.1.status = q.2.status
          ∨ JobStateMachine.specCanTransition q.1.status q.2.status = true)
    ∧ (∀ (store : Store) (job_id : Nat),
        ∀ q ∈ store.zip (JobService.cancel_job store job_id).2,
          q.1.status = q.2.status
          ∨ JobStateMachine.specCanTransition q.1.status q.2.status = true)
    ∧ (∀ (store : Store) (job_id : Nat) (ns : JobStatus),
        ∀ q ∈ store.zip (JobService.transition_status store job_id ns).2,
          q.1.status = q.2.status
          ∨ JobStateMachine.specCanTransition q.1.status q.2.status = true)
    ∧ (∀ (wid : String) (st : SysState),
        (st.jobs.map Job.job_id).Nodup →
        ∀ q ∈ st.jobs.zip (HeartbeatService.handle_stale_worker wid st).jobs,
          q.1.status = q.2.status
          ∨ (q.1.status = JobStatus.RUNNING
              ∧ q.2.status = JobStatus.PENDING))
    ∧ JobStateMachine.specCanTransition JobStatus.RUNNING JobStatus.PENDING
        = false := by
  have hsub : ∀ f t, JobStateMachine.can_transition f t = true →
      JobStateMachine.specCanTransition f t = true := by decide
  refine ⟨hsub, ?_, ?_, ?_, ?_, by decide⟩
  · intro now wid store h q hq
    cases hf : store.find? (Scheduler.ready now store) with
    | none =>
        rw [claim_job_none hf] at hq
        exact Or.inl (congrArg Job.status (zip_self_eq store q hq)).symm
    | some j₀ =>
        rw [claim_job_some hf] at hq
        rcases zip_updateFirstBy _ _ store q hq with h1 | ⟨h2, h3⟩
        · exact Or.inl (by rw [h1])
        · have hq1mem := List.mem_of_find?_eq_some h2
          have hq1id : q.1.job_id = j₀.job_id := by
            simpa using List.find?_some h2
          have hj₀mem := List.mem_of_find?_eq_some hf
          have heq : q.1 = j₀ :=
            List.inj_on_of_nodup_map h hq1mem hj₀mem hq1id
          have hstat : q.1.status = JobStatus.PENDING := by
            rw [heq]; exact (ready_iff.mp (List.find?_some hf)).1
          right
          rw [h3, hstat]
          show JobStateMachine.specCanTransition JobStatus.PENDING
            JobStatus.SCHEDULED = true
          decide
  · intro store job_id q hq
    cases hj : JobService.get_by_id store job_id with
    | none =>
        rw [cancel_job_not_found hj] at hq
        exact Or.inl (congrArg Job.status (zip_self_eq store q hq)).symm
    | some j₀ =>
        cases hv : JobStateMachine.can_transition j₀.status
            JobStatus.CANCELED with
        | false =>
            rw [cancel_job_invalid hj hv] at hq
            exact Or.inl (congrArg Job.status (zip_self_eq store q hq)).symm
        | true =>
            rw [cancel_job_ok hj hv] at hq
            rcases zip_updateFirstBy _ _ store q hq with h1 | ⟨h2, h3⟩
            · exact Or.inl (by rw [h1])
            · have h4 : j₀ = q.1 := by
                have h5 : some j₀ = some q.1 := hj.symm.trans h2
                injection h5
              right
              rw [h3]
              refine hsub _ _ ?_
              show JobStateMachine.can_transition q.1.status
                JobStatus.CANCELED = true
              rw [← h4]; exact hv
  · intro store job_id ns q hq
    cases hj : JobService.get_by_id store job_id with
    | none =>
        rw [transition_status_not_found hj] at hq
        exact Or.inl (congrArg Job.status (zip_self_eq store q hq)).symm
    | some j₀ =>
        cases hv : JobStateMachine.can_transition j₀.status ns with
        | false =>
            rw [transition_status_invalid hj hv] at hq
            exact Or.inl (congrArg Job.status (zip_self_eq store q hq)).symm
        | true =>
            rw [transition_status_ok hj hv] at hq
            rcases zip_updateFirstBy _ _ store q hq with h1 | ⟨h2, h3⟩
            · exact Or.inl (by rw [h1])
            · have h4 : j₀ = q.1 := by
                have h5 : some j₀ = some q.1 := hj.symm.trans h2
                injection h5
              right
              rw [h3]
              refine hsub _ _ ?_
              show JobStateMachine.can_transition q.1.status ns = true
              rw [← h4]; exact hv
  · intro wid st h q hq
    have hjobs : (HeartbeatService.handle_stale_worker wid st).jobs
        = st.jobs.map (fun j =>
            if j.job_id ∈ HeartbeatService.get_worker_jobs wid st
                ∧ j.status = JobStatus.RUNNING
            then { j with status := JobStatus.PENDING } else j) :=
      foldl_reclaim_eq_map (HeartbeatService.get_worker_jobs wid st)
        st.jobs h
    rw [hjobs] at hq
    have h2 := zip_map_eq _ st.jobs q hq
    by_cases hc : q.1.job_id ∈ HeartbeatService.get_worker_jobs wid st
        ∧ q.1.status = JobStatus.RUNNING
    · exact Or.inr ⟨hc.2, by rw [h2]; simp [hc]⟩
    · exact Or.inl (by rw [h2]; simp [hc])

/-- Witness for C2 at concrete inputs: a one-job PENDING store is
claimed by "w1" (the only changed pair is the PENDING→SCHEDULED edge),
and the stale sweep of the counterexample state flips its RUNNING job
to PENDING. -/
theorem c2_core_transition_edges_witness :
    ((⟨1, "k", 5, 0, JobStatus.PENDING, none, []⟩ : Job).status
        = (⟨1, "k", 5, 0, JobStatus.SCHEDULED, some "w1", []⟩ : Job).status
      ∨ JobStateMachine.specCanTransition
          (⟨1, "k", 5, 0, JobStatus.PENDING, none, []⟩ : Job).status
          (⟨1, "k", 5, 0, JobStatus.SCHEDULED, some "w1", []⟩ : Job).status
        = true)
    ∧ ((⟨1, "k", 5, 0, JobStatus.RUNNING, some "w1", []⟩ : Job).status
        = (⟨1, "k", 5, 0, JobStatus.PENDING, some "w1", []⟩ : Job).status
      ∨ ((⟨1, "k", 5, 0, JobStatus.RUNNING, some "w1", []⟩ : Job).status
          = JobStatus.RUNNING
        ∧ (⟨1, "k", 5, 0, JobStatus.PENDING, some "w1", []⟩ : Job).status
          = JobStatus.PENDING)) :=
  ⟨c2_core_transition_edges.2.1 0 "w1"
      [⟨1, "k", 5, 0, JobStatus.PENDING, none, []⟩] (by decide)
      (⟨1, "k", 5, 0, JobStatus.PENDING, none, []⟩,
       ⟨1, "k", 5, 0, JobStatus.SCHEDULED, some "w1", []⟩) (by decide),
   c2_core_transition_edges.2.2.2.2.1 "w1"
      ⟨[⟨1, "k", 5, 0, JobStatus.RUNNING, some "w1", []⟩], [], [],
       [("worker:w1:jobs", [1])]⟩ (by decide)
      (⟨1, "k", 5, 0, JobStatus.RUNNING, some "w1", []⟩,
       ⟨1, "k", 5, 0, JobStatus.PENDING, some "w1", []⟩) (by decide)⟩

end Schedora
